import Mathlib

set_option maxRecDepth 10000

/-!
Verification of the HotSpot object-header code (markWord.hpp) and the
BasicLock relocation routine (basicLock.cpp) against its natural-language
specification.  The C++ code is embedded shallowly: the header word is a
64-bit unsigned machine word, modelled as a natural number together with
explicit bounds where the 64-bit width matters; pointer-typed results
(JavaThread, ObjectMonitor) are modelled as the natural number holding the
pointer bits; debug assertions guarding accessors are modelled by returning
an Option, with none standing for an assertion failure.
-/

/-- Bit width of a machine word on the 64-bit VM (LP64). -/
def BitsPerWord : Nat := 64

/-- HotSpot utility: a mask of the n rightmost bits, right_n_bits(n). -/
def right_n_bits (n : Nat) : Nat := (1 <<< n) - 1

/-- HotSpot utility: mask_bits(x, m) = x & m. -/
def mask_bits (x m : Nat) : Nat := x &&& m

/-- Bitwise complement on a 64-bit word, the C operator ~ at uintptr_t. -/
def word_not (x : Nat) : Nat := x ^^^ right_n_bits 64

/-- The markWord class: a single uintptr_t value.  The 64-bit bound is an
invariant of the C type, carried as a hypothesis where it matters. -/
structure markWord where
  value : Nat
deriving DecidableEq

namespace markWord

/-- age_bits = 4 -/
def age_bits : Nat := 4

/-- lock_bits = 2 -/
def lock_bits : Nat := 2

/-- biased_lock_bits = 1 -/
def biased_lock_bits : Nat := 1

/-- max_hash_bits = BitsPerWord - age_bits - lock_bits - biased_lock_bits -/
def max_hash_bits : Nat := BitsPerWord - age_bits - lock_bits - biased_lock_bits

/-- hash_bits = max_hash_bits > 31 ? 31 : max_hash_bits -/
def hash_bits : Nat := if max_hash_bits > 31 then 31 else max_hash_bits

/-- unused_gap_bits = LP64_ONLY(1) -/
def unused_gap_bits : Nat := 1

/-- epoch_bits = 2 -/
def epoch_bits : Nat := 2

/-- lock_shift = 0 -/
def lock_shift : Nat := 0

/-- biased_lock_shift = lock_bits -/
def biased_lock_shift : Nat := lock_bits

/-- age_shift = lock_bits + biased_lock_bits -/
def age_shift : Nat := lock_bits + biased_lock_bits

/-- unused_gap_shift = age_shift + age_bits -/
def unused_gap_shift : Nat := age_shift + age_bits

/-- hash_shift = unused_gap_shift + unused_gap_bits -/
def hash_shift : Nat := unused_gap_shift + unused_gap_bits

/-- epoch_shift = hash_shift -/
def epoch_shift : Nat := hash_shift

/-- lock_mask = right_n_bits(lock_bits) -/
def lock_mask : Nat := right_n_bits lock_bits

/-- lock_mask_in_place = lock_mask << lock_shift -/
def lock_mask_in_place : Nat := lock_mask <<< lock_shift

/-- biased_lock_mask = right_n_bits(lock_bits + biased_lock_bits) -/
def biased_lock_mask : Nat := right_n_bits (lock_bits + biased_lock_bits)

/-- biased_lock_mask_in_place = biased_lock_mask << lock_shift -/
def biased_lock_mask_in_place : Nat := biased_lock_mask <<< lock_shift

/-- biased_lock_bit_in_place = 1 << biased_lock_shift -/
def biased_lock_bit_in_place : Nat := 1 <<< biased_lock_shift

/-- age_mask = right_n_bits(age_bits) -/
def age_mask : Nat := right_n_bits age_bits

/-- age_mask_in_place = age_mask << age_shift -/
def age_mask_in_place : Nat := age_mask <<< age_shift

/-- epoch_mask = right_n_bits(epoch_bits) -/
def epoch_mask : Nat := right_n_bits epoch_bits

/-- epoch_mask_in_place = epoch_mask << epoch_shift -/
def epoch_mask_in_place : Nat := epoch_mask <<< epoch_shift

/-- hash_mask = right_n_bits(hash_bits) -/
def hash_mask : Nat := right_n_bits hash_bits

/-- hash_mask_in_place = hash_mask << hash_shift -/
def hash_mask_in_place : Nat := hash_mask <<< hash_shift

/-- locked_value = 0 -/
def locked_value : Nat := 0

/-- unlocked_value = 1 -/
def unlocked_value : Nat := 1

/-- monitor_value = 2 -/
def monitor_value : Nat := 2

/-- marked_value = 3 -/
def marked_value : Nat := 3

/-- biased_lock_pattern = 5 -/
def biased_lock_pattern : Nat := 5

/-- no_hash = 0 -/
def no_hash : Nat := 0

/-- no_hash_in_place = no_hash << hash_shift -/
def no_hash_in_place : Nat := no_hash <<< hash_shift

/-- no_lock_in_place = unlocked_value -/
def no_lock_in_place : Nat := unlocked_value

/-- max_age = age_mask -/
def max_age : Nat := age_mask

/-- max_bias_epoch = epoch_mask -/
def max_bias_epoch : Nat := epoch_mask

/-- markWord::zero() -/
def zero : markWord := markWord.mk 0

/-- markWord::has_bias_pattern():
mask_bits(value(), biased_lock_mask_in_place) == biased_lock_pattern. -/
def has_bias_pattern (m : markWord) : Bool :=
  mask_bits m.value biased_lock_mask_in_place == biased_lock_pattern

/-- markWord::biased_locker():
asserts has_bias_pattern(), then returns
(JavaThread*) mask_bits(value(), ~(biased_lock_mask_in_place | age_mask_in_place | epoch_mask_in_place)).
The debug assertion is modelled by the Option: none is an assertion failure. -/
def biased_locker (m : markWord) : Option Nat :=
  if m.has_bias_pattern then
    some (mask_bits m.value
      (word_not (biased_lock_mask_in_place ||| age_mask_in_place ||| epoch_mask_in_place)))
  else
    none

/-- markWord::is_biased_anonymously():
has_bias_pattern() && (biased_locker() == NULL).  The short-circuit means
biased_locker is only consulted when its assertion holds, hence comparing
with some 0. -/
def is_biased_anonymously (m : markWord) : Bool :=
  m.has_bias_pattern && (m.biased_locker == some 0)

/-- markWord::bias_epoch():
asserts has_bias_pattern(), then returns
mask_bits(value(), epoch_mask_in_place) >> epoch_shift. -/
def bias_epoch (m : markWord) : Option Nat :=
  if m.has_bias_pattern then
    some (mask_bits m.value epoch_mask_in_place >>> epoch_shift)
  else
    none

/-- markWord::is_locked():
mask_bits(value(), lock_mask_in_place) != unlocked_value. -/
def is_locked (m : markWord) : Bool :=
  mask_bits m.value lock_mask_in_place != unlocked_value

/-- markWord::is_unlocked():
mask_bits(value(), biased_lock_mask_in_place) == unlocked_value. -/
def is_unlocked (m : markWord) : Bool :=
  mask_bits m.value biased_lock_mask_in_place == unlocked_value

/-- markWord::is_marked():
mask_bits(value(), lock_mask_in_place) == marked_value. -/
def is_marked (m : markWord) : Bool :=
  mask_bits m.value lock_mask_in_place == marked_value

/-- markWord::is_neutral():
mask_bits(value(), biased_lock_mask_in_place) == unlocked_value. -/
def is_neutral (m : markWord) : Bool :=
  mask_bits m.value biased_lock_mask_in_place == unlocked_value

/-- markWord::is_being_inflated(): value() == 0. -/
def is_being_inflated (m : markWord) : Bool := m.value == 0

/-- markWord::set_unlocked(): value() | unlocked_value. -/
def set_unlocked (m : markWord) : markWord := markWord.mk (m.value ||| unlocked_value)

/-- markWord::has_locker(): (value() & lock_mask_in_place) == locked_value. -/
def has_locker (m : markWord) : Bool :=
  (m.value &&& lock_mask_in_place) == locked_value

/-- markWord::has_monitor(): (value() & monitor_value) != 0. -/
def has_monitor (m : markWord) : Bool :=
  (m.value &&& monitor_value) != 0

/-- markWord::monitor():
asserts has_monitor(), then returns (ObjectMonitor*) (value() ^ monitor_value).
The source comment: use xor instead of &~ to provide one extra tag-bit check. -/
def monitor (m : markWord) : Option Nat :=
  if m.has_monitor then some (m.value ^^^ monitor_value) else none

/-- markWord::copy_set_hash(intptr_t hash):
tmp = value() & ~hash_mask_in_place; tmp |= ((hash & hash_mask) << hash_shift).
The hash argument is modelled by its unsigned 64-bit reinterpretation. -/
def copy_set_hash (m : markWord) (hash : Nat) : markWord :=
  markWord.mk ((m.value &&& word_not hash_mask_in_place) |||
    ((hash &&& hash_mask) <<< hash_shift))

/-- markWord::unused_mark(): markWord(marked_value). -/
def unused_mark : markWord := markWord.mk marked_value

/-- markWord::encode(BasicLock* lock): from_pointer(lock). -/
def encode_basic_lock (lock : Nat) : markWord := markWord.mk lock

/-- markWord::encode(ObjectMonitor* monitor): markWord(tmp | monitor_value)
where tmp = (uintptr_t) monitor. -/
def encode_object_monitor (monitorPtr : Nat) : markWord :=
  markWord.mk (monitorPtr ||| monitor_value)

/-- markWord::encode(JavaThread* thread, uint age, int bias_epoch):
markWord(tmp | (bias_epoch << epoch_shift) | (age << age_shift) | biased_lock_pattern)
where tmp = (uintptr_t) thread.  The source asserts that tmp has no bits in
epoch_mask_in_place | age_mask_in_place | biased_lock_mask_in_place, that
age <= max_age and that bias_epoch <= max_bias_epoch; these preconditions
appear as hypotheses of the theorems about this function. -/
def encode_thread (thread age biasEpoch : Nat) : markWord :=
  markWord.mk (thread ||| (biasEpoch <<< epoch_shift) ||| (age <<< age_shift) |||
    biased_lock_pattern)

/-- markWord::clear_lock_bits(): value() & ~lock_mask_in_place. -/
def clear_lock_bits (m : markWord) : markWord :=
  markWord.mk (m.value &&& word_not lock_mask_in_place)

/-- markWord::set_marked(): (value() & ~lock_mask_in_place) | marked_value. -/
def set_marked (m : markWord) : markWord :=
  markWord.mk ((m.value &&& word_not lock_mask_in_place) ||| marked_value)

/-- markWord::set_unmarked(): (value() & ~lock_mask_in_place) | unlocked_value. -/
def set_unmarked (m : markWord) : markWord :=
  markWord.mk ((m.value &&& word_not lock_mask_in_place) ||| unlocked_value)

/-- markWord::age(): mask_bits(value() >> age_shift, age_mask). -/
def age (m : markWord) : Nat := mask_bits (m.value >>> age_shift) age_mask

/-- markWord::set_age(uint v):
(value() & ~age_mask_in_place) | ((v & age_mask) << age_shift).
The source asserts (v & ~age_mask) == 0. -/
def set_age (m : markWord) (v : Nat) : markWord :=
  markWord.mk ((m.value &&& word_not age_mask_in_place) |||
    ((v &&& age_mask) <<< age_shift))

/-- markWord::incr_age(): age() == max_age ? markWord(_value) : set_age(age() + 1). -/
def incr_age (m : markWord) : markWord :=
  if m.age == max_age then markWord.mk m.value else m.set_age (m.age + 1)

/-- markWord::hash(): mask_bits(value() >> hash_shift, hash_mask). -/
def hash (m : markWord) : Nat := mask_bits (m.value >>> hash_shift) hash_mask

/-- markWord::has_no_hash(): hash() == no_hash. -/
def has_no_hash (m : markWord) : Bool := m.hash == no_hash

/-- markWord::prototype(): markWord(no_hash_in_place | no_lock_in_place). -/
def prototype : markWord := markWord.mk (no_hash_in_place ||| no_lock_in_place)

end markWord

/-- BasicLock: its one data member is the displaced header word
(volatile markWord _displaced_header). -/
structure BasicLock where
  displaced_header : markWord
deriving DecidableEq

/-- BasicLock::move_to(oop obj, BasicLock* dest):
if (displaced_header().is_neutral()) call ObjectSynchronizer::inflate_helper(obj)
(an external collaborator that inflates the lock of obj and, per the source
comment, does not update the displaced header), else do nothing; in both
branches finish with dest->set_displaced_header(displaced_header()).
The returned Bool records whether inflate_helper was invoked; the returned
BasicLock is the destination record after the store. -/
def BasicLock.move_to (lock : BasicLock) (dest : BasicLock) : Bool × BasicLock :=
  if lock.displaced_header.is_neutral then
    (true, { dest with displaced_header := lock.displaced_header })
  else
    (false, { dest with displaced_header := lock.displaced_header })

/-! ### Bitwise toolkit -/

/-- Bits at or above the width of a value are clear. -/
theorem testBit_false_of_lt {x n i : Nat} (h : x < 2 ^ n) (hni : n ≤ i) :
    x.testBit i = false :=
  Nat.testBit_lt_two_pow (lt_of_lt_of_le h (Nat.pow_le_pow_right (by omega) hni))

/-- Masking with a low-bit mask is reduction mod a power of two. -/
theorem and_two_pow_sub_one_eq_mod (x n : Nat) : x &&& (2 ^ n - 1) = x % 2 ^ n := by
  apply Nat.eq_of_testBit_eq
  intro i
  simp [Bool.and_comm]

/-- Right shift distributes over bitwise or. -/
theorem shiftRight_lor_distrib (a b k : Nat) : (a ||| b) >>> k = (a >>> k) ||| (b >>> k) := by
  apply Nat.eq_of_testBit_eq
  intro i
  simp

/-- Right shift distributes over bitwise and. -/
theorem shiftRight_land_distrib (a b k : Nat) : (a &&& b) >>> k = (a >>> k) &&& (b >>> k) := by
  apply Nat.eq_of_testBit_eq
  intro i
  simp

/-- Left shift distributes over bitwise and. -/
theorem shiftLeft_land_distrib (a b k : Nat) : (a &&& b) <<< k = (a <<< k) &&& (b <<< k) := by
  apply Nat.eq_of_testBit_eq
  intro i
  by_cases h : k ≤ i <;> simp [h]

/-- A value shifted left by k is disjoint from any mask below 2 ^ k. -/
theorem shiftLeft_and_eq_zero {b k : Nat} (a : Nat) (h : b < 2 ^ k) : (a <<< k) &&& b = 0 := by
  apply Nat.eq_of_testBit_eq
  intro i
  by_cases hk : k ≤ i
  · have hb : b.testBit i = false := testBit_false_of_lt h hk
    simp [hb]
  · simp [hk]

/-- Bitwise or of disjoint values is their xor. -/
theorem lor_eq_xor_of_and_eq_zero {a b : Nat} (h : a &&& b = 0) : a ||| b = a ^^^ b := by
  apply Nat.eq_of_testBit_eq
  intro i
  have h2 := congrArg (fun y => Nat.testBit y i) h
  simp only [Nat.testBit_and, Nat.zero_testBit] at h2
  cases ha : a.testBit i <;> cases hb : b.testBit i <;> simp_all

/-- Masking after a right shift is masking with the shifted mask before it. -/
theorem shiftRight_and_eq (x m k : Nat) : (x >>> k) &&& m = (x &&& (m <<< k)) >>> k := by
  apply Nat.eq_of_testBit_eq
  intro i
  simp [Nat.add_comm k i]

/-- A bit on a mask known to vanish against x is absent from x. -/
theorem testBit_false_of_and_eq_zero {x m : Nat} (h : x &&& m = 0) {i : Nat}
    (hm : m.testBit i = true) : x.testBit i = false := by
  have h2 := congrArg (fun y => Nat.testBit y i) h
  simp only [Nat.testBit_and, Nat.zero_testBit, hm, Bool.and_true] at h2
  exact h2

/-! ### Shared helper lemmas about the header operations -/

/-- A word whose low two bits read the marked tag has the monitor bit set. -/
theorem has_monitor_of_marked_low_bits {m : markWord}
    (h : mask_bits m.value markWord.lock_mask_in_place = markWord.marked_value) :
    m.has_monitor = true := by
  have e1 := congrArg (fun y => y &&& markWord.monitor_value) h
  simp only [mask_bits] at e1
  rw [Nat.and_assoc,
    show markWord.lock_mask_in_place &&& markWord.monitor_value = markWord.monitor_value by decide,
    show markWord.marked_value &&& markWord.monitor_value = markWord.monitor_value by decide] at e1
  simp only [markWord.has_monitor, e1]
  decide

/-- Claim C3: the predicates is_unlocked and is_neutral are extensionally
equal; both hold exactly when the bias-plus-lock mask of the word equals the
unlocked tag value; consequently an anonymously biased word is neither
unlocked nor neutral. -/
theorem C3_is_unlocked_eq_is_neutral (m : markWord) :
    (m.is_unlocked = m.is_neutral) ∧
    (m.is_unlocked = true ↔
      mask_bits m.value markWord.biased_lock_mask_in_place = markWord.unlocked_value) ∧
    (m.is_biased_anonymously = true → m.is_unlocked = false ∧ m.is_neutral = false) := by
  refine ⟨rfl, by simp [markWord.is_unlocked], ?_⟩
  intro h
  have hb : m.has_bias_pattern = true := by
    simp only [markWord.is_biased_anonymously, Bool.and_eq_true] at h
    exact h.1
  have hm5 : mask_bits m.value markWord.biased_lock_mask_in_place =
      markWord.biased_lock_pattern := by
    simpa [markWord.has_bias_pattern] using hb
  constructor <;>
    simp [markWord.is_unlocked, markWord.is_neutral, hm5, markWord.biased_lock_pattern,
      markWord.unlocked_value]

/-- Witness for C3 at the anonymously biased word 5. -/
theorem C3_is_unlocked_eq_is_neutral_witness :
    (markWord.mk 5).is_biased_anonymously = true ∧
    (markWord.mk 5).is_unlocked = false ∧ (markWord.mk 5).is_neutral = false :=
  ⟨by decide, (C3_is_unlocked_eq_is_neutral (markWord.mk 5)).2.2 (by decide)⟩

/-- Claim C6: is_locked holds exactly when the low two bits of the word
differ from the unlocked tag value 1. -/
theorem C6_is_locked_iff_low_bits (m : markWord) :
    m.is_locked = true ↔ m.value % 4 ≠ 1 := by
  have h3 : markWord.lock_mask_in_place = 2 ^ 2 - 1 := by decide
  simp only [markWord.is_locked, mask_bits, h3, and_two_pow_sub_one_eq_mod]
  rw [show (2:Nat) ^ 2 = 4 by norm_num]
  simp [markWord.unlocked_value]

/-- Witness for C6 at the word 0, which is locked. -/
theorem C6_is_locked_iff_low_bits_witness : (markWord.mk 0).is_locked = true :=
  (C6_is_locked_iff_low_bits (markWord.mk 0)).mpr (by decide)

/-- Claim C10: every word whose low two bits equal the marked tag 3 also
satisfies has_monitor, and set_marked always produces such a word, so the
Marked and Monitor predicates are not mutually exclusive. -/
theorem C10_marked_has_monitor (m : markWord) :
    (mask_bits m.value markWord.lock_mask_in_place = markWord.marked_value →
      m.has_monitor = true) ∧
    mask_bits (m.set_marked).value markWord.lock_mask_in_place = markWord.marked_value ∧
    (m.set_marked).has_monitor = true := by
  have hsm : mask_bits (m.set_marked).value markWord.lock_mask_in_place =
      markWord.marked_value := by
    simp only [markWord.set_marked, mask_bits]
    rw [Nat.and_distrib_right, Nat.and_assoc,
      show word_not markWord.lock_mask_in_place &&& markWord.lock_mask_in_place = 0 by decide,
      show markWord.marked_value &&& markWord.lock_mask_in_place = markWord.marked_value by decide]
    simp
  exact ⟨fun h => has_monitor_of_marked_low_bits h, hsm, has_monitor_of_marked_low_bits hsm⟩

/-- Witness for C10 at the word 3. -/
theorem C10_marked_has_monitor_witness :
    mask_bits (markWord.mk 3).value markWord.lock_mask_in_place = markWord.marked_value ∧
    (markWord.mk 3).has_monitor = true :=
  ⟨by decide, (C10_marked_has_monitor (markWord.mk 3)).1 (by decide)⟩

/-- Counterexample to claim C2 as stated: at the anonymously biased word 5
the accessor biased_locker does not assert or fault (its assertion only
checks has_bias_pattern, which holds); it returns the zero pointer. -/
theorem C2_counterexample :
    (markWord.mk 5).is_biased_anonymously = true ∧
    (markWord.mk 5).biased_locker ≠ none := by
  refine ⟨by decide, by decide⟩

/-- Claim C2 (amended): when the bias pattern is set and the thread field is
zero, is_biased_anonymously returns true, and biased_locker passes its
assertion (which only checks has_bias_pattern) and returns the zero
pointer; is_biased_anonymously is exactly the check that this result is the
zero pointer. -/
theorem C2_anonymous_bias (m : markWord)
    (hb : m.has_bias_pattern = true)
    (ht : mask_bits m.value (word_not (markWord.biased_lock_mask_in_place |||
      markWord.age_mask_in_place ||| markWord.epoch_mask_in_place)) = 0) :
    m.is_biased_anonymously = true ∧ m.biased_locker = some 0 := by
  have hl : m.biased_locker = some 0 := by
    simp [markWord.biased_locker, hb, ht]
  refine ⟨?_, hl⟩
  simp [markWord.is_biased_anonymously, hb, hl]

/-- Witness for C2 at the word 5. -/
theorem C2_anonymous_bias_witness :
    (markWord.mk 5).is_biased_anonymously = true ∧
    (markWord.mk 5).biased_locker = some 0 :=
  C2_anonymous_bias (markWord.mk 5) (by decide) (by decide)

/-- Claim C4: move_to invokes inflation exactly when the displaced header is
neutral; in every case the destination record afterwards holds the source
displaced header; a zero (recursive) or monitor-denoting displaced header is
copied without inflation. -/
theorem C4_move_to_correct (lock dest : BasicLock) :
    ((lock.move_to dest).1 = true ↔ lock.displaced_header.is_neutral = true) ∧
    ((lock.move_to dest).2).displaced_header = lock.displaced_header ∧
    ((lock.displaced_header.value = 0 ∨ lock.displaced_header.has_monitor = true) →
      (lock.move_to dest).1 = false) := by
  cases hn : lock.displaced_header.is_neutral
  · refine ⟨?_, ?_, ?_⟩ <;> simp [BasicLock.move_to, hn]
  · refine ⟨by simp [BasicLock.move_to, hn], by simp [BasicLock.move_to, hn], ?_⟩
    intro h
    exfalso
    have h1 : mask_bits lock.displaced_header.value markWord.biased_lock_mask_in_place =
        markWord.unlocked_value := by
      have h2 := hn
      simp only [markWord.is_neutral, beq_iff_eq] at h2
      exact h2
    rcases h with h0 | hmon
    · rw [h0] at h1
      exact absurd h1 (by decide)
    · have h2 : lock.displaced_header.value &&& markWord.monitor_value = 0 := by
        have e1 := congrArg (fun y => y &&& markWord.monitor_value) h1
        simp only [mask_bits] at e1
        rw [Nat.and_assoc,
          show markWord.biased_lock_mask_in_place &&& markWord.monitor_value =
            markWord.monitor_value by decide,
          show markWord.unlocked_value &&& markWord.monitor_value = 0 by decide] at e1
        exact e1
      simp [markWord.has_monitor, h2] at hmon

/-- Witness for C4: a zero displaced header is moved without inflation. -/
theorem C4_move_to_correct_witness :
    ((BasicLock.mk (markWord.mk 0)).move_to (BasicLock.mk (markWord.mk 7))).1 = false ∧
    ((BasicLock.mk (markWord.mk 0)).move_to (BasicLock.mk (markWord.mk 7))).2.displaced_header =
      markWord.mk 0 :=
  ⟨(C4_move_to_correct (BasicLock.mk (markWord.mk 0)) (BasicLock.mk (markWord.mk 7))).2.2
      (Or.inl rfl),
    (C4_move_to_correct (BasicLock.mk (markWord.mk 0)) (BasicLock.mk (markWord.mk 7))).2.1⟩

/-- Claim C5: for a monitor pointer with clear low two bits, the encoded
header equals the pointer combined with tag 2 by xor, satisfies has_monitor,
and monitor() recovers the original pointer. -/
theorem C5_encode_monitor_roundtrip (p : Nat)
    (hp : p &&& markWord.lock_mask_in_place = 0) :
    (markWord.encode_object_monitor p).value = p ^^^ markWord.monitor_value ∧
    (markWord.encode_object_monitor p).has_monitor = true ∧
    (markWord.encode_object_monitor p).monitor = some p := by
  have hp2 : p &&& markWord.monitor_value = 0 := by
    have e1 := congrArg (fun y => y &&& markWord.monitor_value) hp
    simp only at e1
    rw [Nat.and_assoc,
      show markWord.lock_mask_in_place &&& markWord.monitor_value =
        markWord.monitor_value by decide] at e1
    simpa using e1
  have hxor : p ||| markWord.monitor_value = p ^^^ markWord.monitor_value :=
    lor_eq_xor_of_and_eq_zero hp2
  have hval : (markWord.encode_object_monitor p).value = p ^^^ markWord.monitor_value := by
    simp [markWord.encode_object_monitor, hxor]
  have hmon : (markWord.encode_object_monitor p).has_monitor = true := by
    simp only [markWord.has_monitor, markWord.encode_object_monitor]
    rw [Nat.and_distrib_right, hp2,
      show markWord.monitor_value &&& markWord.monitor_value = markWord.monitor_value by decide]
    decide
  refine ⟨hval, hmon, ?_⟩
  simp only [markWord.monitor, hmon, if_true]
  rw [hval, Nat.xor_assoc]
  simp

/-- Witness for C5 at the monitor pointer 8. -/
theorem C5_encode_monitor_roundtrip_witness :
    (markWord.encode_object_monitor 8).value = 8 ^^^ markWord.monitor_value ∧
    (markWord.encode_object_monitor 8).has_monitor = true ∧
    (markWord.encode_object_monitor 8).monitor = some 8 :=
  C5_encode_monitor_roundtrip 8 (by decide)

/-- set_age installs exactly the requested (in-range) age value. -/
theorem age_set_age (m : markWord) (v : Nat) (hv : v ≤ 15) : (m.set_age v).age = v := by
  simp only [markWord.set_age, markWord.age, mask_bits]
  rw [shiftRight_and_eq, Nat.and_distrib_right, Nat.and_assoc,
    show word_not markWord.age_mask_in_place &&&
      (markWord.age_mask <<< markWord.age_shift) = 0 by decide,
    Nat.and_zero, ← shiftLeft_land_distrib, Nat.and_assoc,
    show markWord.age_mask &&& markWord.age_mask = markWord.age_mask by decide,
    Nat.zero_or, Nat.shiftLeft_shiftRight,
    show markWord.age_mask = 2 ^ 4 - 1 by decide, and_two_pow_sub_one_eq_mod,
    show (2:Nat) ^ 4 = 16 by norm_num]
  exact Nat.mod_eq_of_lt (by omega)

/-- Claim C7: incr_age at the maximum age 15 returns the header unchanged,
and below the maximum returns a header whose age is one greater. -/
theorem C7_incr_age_saturates (m : markWord) :
    (m.age = markWord.max_age → m.incr_age = m) ∧
    (m.age < markWord.max_age → (m.incr_age).age = m.age + 1) := by
  have h15 : markWord.max_age = 15 := by decide
  constructor
  · intro h
    have he : m.incr_age = markWord.mk m.value := by
      simp [markWord.incr_age, h]
    rw [he]
  · intro h
    have hne : (m.age == markWord.max_age) = false := by
      simp [Nat.ne_of_lt h]
    have he : m.incr_age = m.set_age (m.age + 1) := by
      simp [markWord.incr_age, hne]
    rw [he]
    exact age_set_age m (m.age + 1) (by omega)

/-- Witness for C7: age 15 saturates, age 0 increments. -/
theorem C7_incr_age_saturates_witness :
    (markWord.mk 120).age = markWord.max_age ∧
    (markWord.mk 120).incr_age = markWord.mk 120 ∧
    (markWord.mk 0).age < markWord.max_age ∧
    ((markWord.mk 0).incr_age).age = (markWord.mk 0).age + 1 :=
  ⟨by decide, (C7_incr_age_saturates (markWord.mk 120)).1 (by decide), by decide,
    (C7_incr_age_saturates (markWord.mk 0)).2 (by decide)⟩

/-- Claim C8: set_age of an in-range value yields a word whose age is that
value and whose bits outside the age field (the lock tag and bias bit below
it, and the hash-or-bias overlay above the gap) are unchanged. -/
theorem C8_set_age_frame (m : markWord) (v : Nat) (hv : v ≤ markWord.max_age)
    (hm : m.value < 2 ^ 64) :
    (m.set_age v).age = v ∧
    mask_bits (m.set_age v).value markWord.biased_lock_mask_in_place =
      mask_bits m.value markWord.biased_lock_mask_in_place ∧
    (m.set_age v).value >>> markWord.unused_gap_shift =
      m.value >>> markWord.unused_gap_shift := by
  have h15 : markWord.max_age = 15 := by decide
  refine ⟨age_set_age m v (by omega), ?_, ?_⟩
  · simp only [markWord.set_age, mask_bits]
    rw [Nat.and_distrib_right,
      shiftLeft_and_eq_zero _
        (show markWord.biased_lock_mask_in_place < 2 ^ markWord.age_shift by decide),
      Nat.or_zero, Nat.and_assoc,
      show word_not markWord.age_mask_in_place &&& markWord.biased_lock_mask_in_place =
        markWord.biased_lock_mask_in_place by decide]
  · simp only [markWord.set_age]
    rw [shiftRight_lor_distrib]
    have hz : ((v &&& markWord.age_mask) <<< markWord.age_shift) >>>
        markWord.unused_gap_shift = 0 := by
      rw [Nat.shiftLeft_eq, Nat.shiftRight_eq_div_pow,
        show (2:Nat) ^ markWord.age_shift = 8 by decide,
        show (2:Nat) ^ markWord.unused_gap_shift = 128 by decide]
      apply Nat.div_eq_of_lt
      have hva : v &&& markWord.age_mask ≤ 15 := by
        rw [show markWord.age_mask = 2 ^ 4 - 1 by decide, and_two_pow_sub_one_eq_mod]
        have := Nat.mod_lt v (y := 2 ^ 4) (by norm_num)
        omega
      omega
    rw [hz, Nat.or_zero, shiftRight_land_distrib,
      show word_not markWord.age_mask_in_place >>> markWord.unused_gap_shift =
        2 ^ 57 - 1 by decide,
      and_two_pow_sub_one_eq_mod]
    apply Nat.mod_eq_of_lt
    rw [Nat.shiftRight_eq_div_pow, show (2:Nat) ^ markWord.unused_gap_shift = 128 by decide]
    apply Nat.div_lt_of_lt_mul
    calc m.value < 2 ^ 64 := hm
      _ = 128 * 2 ^ 57 := by norm_num

/-- Witness for C8: installing age 9 into the word 5. -/
theorem C8_set_age_frame_witness :
    ((markWord.mk 5).set_age 9).age = 9 ∧
    mask_bits ((markWord.mk 5).set_age 9).value markWord.biased_lock_mask_in_place =
      mask_bits (markWord.mk 5).value markWord.biased_lock_mask_in_place ∧
    ((markWord.mk 5).set_age 9).value >>> markWord.unused_gap_shift =
      (markWord.mk 5).value >>> markWord.unused_gap_shift :=
  C8_set_age_frame (markWord.mk 5) 9 (by decide) (by decide)

/-- Claim C9: for an unlocked, non-biased word, copy_set_hash installs the
masked hash into the hash range (hash() returns it) and leaves the lock
tag, bias bit and age bits unchanged. -/
theorem C9_copy_set_hash_frame (m : markWord) (h : Nat)
    (_hu : m.is_unlocked = true) (_hb : m.has_bias_pattern = false) :
    (m.copy_set_hash h).hash = h &&& markWord.hash_mask ∧
    mask_bits (m.copy_set_hash h).value markWord.biased_lock_mask_in_place =
      mask_bits m.value markWord.biased_lock_mask_in_place ∧
    (m.copy_set_hash h).age = m.age := by
  refine ⟨?_, ?_, ?_⟩
  · simp only [markWord.copy_set_hash, markWord.hash, mask_bits]
    rw [shiftRight_and_eq, Nat.and_distrib_right, Nat.and_assoc,
      show word_not markWord.hash_mask_in_place &&&
        (markWord.hash_mask <<< markWord.hash_shift) = 0 by decide,
      Nat.and_zero, ← shiftLeft_land_distrib, Nat.and_assoc,
      show markWord.hash_mask &&& markWord.hash_mask = markWord.hash_mask by decide,
      Nat.zero_or, Nat.shiftLeft_shiftRight]
  · simp only [markWord.copy_set_hash, mask_bits]
    rw [Nat.and_distrib_right,
      shiftLeft_and_eq_zero _
        (show markWord.biased_lock_mask_in_place < 2 ^ markWord.hash_shift by decide),
      Nat.or_zero, Nat.and_assoc,
      show word_not markWord.hash_mask_in_place &&& markWord.biased_lock_mask_in_place =
        markWord.biased_lock_mask_in_place by decide]
  · simp only [markWord.copy_set_hash, markWord.age, mask_bits]
    rw [shiftRight_and_eq, shiftRight_and_eq, Nat.and_distrib_right,
      shiftLeft_and_eq_zero _
        (show markWord.age_mask <<< markWord.age_shift < 2 ^ markWord.hash_shift by decide),
      Nat.or_zero, Nat.and_assoc,
      show word_not markWord.hash_mask_in_place &&&
        (markWord.age_mask <<< markWord.age_shift) =
        markWord.age_mask <<< markWord.age_shift by decide]

/-- Witness for C9: installing a hash into the plain unlocked word 1. -/
theorem C9_copy_set_hash_frame_witness :
    ((markWord.mk 1).copy_set_hash 123456789).hash = 123456789 &&& markWord.hash_mask ∧
    mask_bits ((markWord.mk 1).copy_set_hash 123456789).value
      markWord.biased_lock_mask_in_place =
      mask_bits (markWord.mk 1).value markWord.biased_lock_mask_in_place ∧
    ((markWord.mk 1).copy_set_hash 123456789).age = (markWord.mk 1).age :=
  C9_copy_set_hash_frame (markWord.mk 1) 123456789 (by decide) (by decide)

/-- Claim C1: encoding a properly aligned thread pointer with an in-range
age and epoch yields a word with the bias pattern, from which biased_locker,
age and bias_epoch recover exactly the original thread pointer, age and
epoch. -/
theorem C1_encode_thread_roundtrip (t a e : Nat)
    (hal : t &&& (markWord.epoch_mask_in_place ||| markWord.age_mask_in_place |||
      markWord.biased_lock_mask_in_place) = 0)
    (ht : t < 2 ^ 64) (ha : a ≤ markWord.max_age) (he : e ≤ markWord.max_bias_epoch) :
    (markWord.encode_thread t a e).has_bias_pattern = true ∧
    (markWord.encode_thread t a e).biased_locker = some t ∧
    (markWord.encode_thread t a e).age = a ∧
    (markWord.encode_thread t a e).bias_epoch = some e := by
  rw [show markWord.max_age = 15 by decide] at ha
  rw [show markWord.max_bias_epoch = 3 by decide] at he
  have hta : a &&& markWord.age_mask = a := by
    rw [show markWord.age_mask = 2 ^ 4 - 1 by decide, and_two_pow_sub_one_eq_mod,
      show (2:Nat) ^ 4 = 16 by norm_num]
    exact Nat.mod_eq_of_lt (by omega)
  have hte : e &&& markWord.epoch_mask = e := by
    rw [show markWord.epoch_mask = 2 ^ 2 - 1 by decide, and_two_pow_sub_one_eq_mod,
      show (2:Nat) ^ 2 = 4 by norm_num]
    exact Nat.mod_eq_of_lt (by omega)
  have hsub : ∀ c : Nat, (markWord.epoch_mask_in_place ||| markWord.age_mask_in_place |||
      markWord.biased_lock_mask_in_place) &&& c = c → t &&& c = 0 := by
    intro c hc
    have e1 := congrArg (fun y => y &&& c) hal
    simp only at e1
    rw [Nat.and_assoc, hc] at e1
    simpa using e1
  have hbp : mask_bits (markWord.encode_thread t a e).value
      markWord.biased_lock_mask_in_place = markWord.biased_lock_pattern := by
    simp only [markWord.encode_thread, mask_bits]
    rw [Nat.and_distrib_right, Nat.and_distrib_right, Nat.and_distrib_right,
      hsub markWord.biased_lock_mask_in_place (by decide),
      shiftLeft_and_eq_zero _
        (show markWord.biased_lock_mask_in_place < 2 ^ markWord.epoch_shift by decide),
      shiftLeft_and_eq_zero _
        (show markWord.biased_lock_mask_in_place < 2 ^ markWord.age_shift by decide),
      show markWord.biased_lock_pattern &&& markWord.biased_lock_mask_in_place =
        markWord.biased_lock_pattern by decide]
    simp
  have hcond : (markWord.encode_thread t a e).has_bias_pattern = true := by
    simp [markWord.has_bias_pattern, hbp]
  have ht_wn : t &&& word_not (markWord.biased_lock_mask_in_place |||
      markWord.age_mask_in_place ||| markWord.epoch_mask_in_place) = t := by
    have e1 : t &&& ((markWord.epoch_mask_in_place ||| markWord.age_mask_in_place |||
        markWord.biased_lock_mask_in_place) |||
        word_not (markWord.biased_lock_mask_in_place ||| markWord.age_mask_in_place |||
          markWord.epoch_mask_in_place)) = t := by
      rw [show (markWord.epoch_mask_in_place ||| markWord.age_mask_in_place |||
          markWord.biased_lock_mask_in_place) |||
          word_not (markWord.biased_lock_mask_in_place ||| markWord.age_mask_in_place |||
            markWord.epoch_mask_in_place) = 2 ^ 64 - 1 by decide,
        and_two_pow_sub_one_eq_mod]
      exact Nat.mod_eq_of_lt ht
    rw [Nat.and_or_distrib_left, hal, Nat.zero_or] at e1
    exact e1
  have hewn : (e <<< markWord.epoch_shift) &&&
      word_not (markWord.biased_lock_mask_in_place ||| markWord.age_mask_in_place |||
        markWord.epoch_mask_in_place) = 0 := by
    rw [← hte, shiftLeft_land_distrib, Nat.and_assoc,
      show (markWord.epoch_mask <<< markWord.epoch_shift) &&&
        word_not (markWord.biased_lock_mask_in_place ||| markWord.age_mask_in_place |||
          markWord.epoch_mask_in_place) = 0 by decide,
      Nat.and_zero]
  have hawn : (a <<< markWord.age_shift) &&&
      word_not (markWord.biased_lock_mask_in_place ||| markWord.age_mask_in_place |||
        markWord.epoch_mask_in_place) = 0 := by
    rw [← hta, shiftLeft_land_distrib, Nat.and_assoc,
      show (markWord.age_mask <<< markWord.age_shift) &&&
        word_not (markWord.biased_lock_mask_in_place ||| markWord.age_mask_in_place |||
          markWord.epoch_mask_in_place) = 0 by decide,
      Nat.and_zero]
  have hbl : (markWord.encode_thread t a e).biased_locker = some t := by
    rw [show (markWord.encode_thread t a e).biased_locker =
        some (mask_bits (markWord.encode_thread t a e).value
          (word_not (markWord.biased_lock_mask_in_place ||| markWord.age_mask_in_place |||
            markWord.epoch_mask_in_place))) from by simp [markWord.biased_locker, hcond]]
    congr 1
    simp only [markWord.encode_thread, mask_bits]
    rw [Nat.and_distrib_right, Nat.and_distrib_right, Nat.and_distrib_right,
      ht_wn, hewn, hawn,
      show markWord.biased_lock_pattern &&&
        word_not (markWord.biased_lock_mask_in_place ||| markWord.age_mask_in_place |||
          markWord.epoch_mask_in_place) = 0 by decide]
    simp
  have hage : (markWord.encode_thread t a e).age = a := by
    simp only [markWord.encode_thread, markWord.age, mask_bits]
    rw [shiftRight_and_eq, Nat.and_distrib_right, Nat.and_distrib_right,
      Nat.and_distrib_right,
      hsub (markWord.age_mask <<< markWord.age_shift) (by decide),
      show markWord.epoch_shift = 5 + markWord.age_shift by decide, Nat.shiftLeft_add,
      ← shiftLeft_land_distrib,
      shiftLeft_and_eq_zero _ (show markWord.age_mask < 2 ^ 5 by decide),
      Nat.zero_shiftLeft, ← shiftLeft_land_distrib, hta,
      show markWord.biased_lock_pattern &&& (markWord.age_mask <<< markWord.age_shift) =
        0 by decide]
    simp
  have hep : mask_bits (markWord.encode_thread t a e).value markWord.epoch_mask_in_place >>>
      markWord.epoch_shift = e := by
    simp only [markWord.encode_thread, mask_bits]
    rw [show markWord.epoch_mask_in_place =
        markWord.epoch_mask <<< markWord.epoch_shift from rfl,
      Nat.and_distrib_right, Nat.and_distrib_right, Nat.and_distrib_right,
      hsub (markWord.epoch_mask <<< markWord.epoch_shift) (by decide),
      ← shiftLeft_land_distrib, hte,
      show markWord.epoch_mask <<< markWord.epoch_shift =
        (markWord.epoch_mask <<< 5) <<< markWord.age_shift by decide]
    have haem : a &&& (markWord.epoch_mask <<< 5) = 0 := by
      rw [Nat.and_comm]
      exact shiftLeft_and_eq_zero _
        (by rw [show (2:Nat) ^ 5 = 32 by norm_num]; omega)
    rw [← shiftLeft_land_distrib, haem, Nat.zero_shiftLeft,
      show markWord.biased_lock_pattern &&&
        ((markWord.epoch_mask <<< 5) <<< markWord.age_shift) = 0 by decide]
    simp
  have hbe : (markWord.encode_thread t a e).bias_epoch = some e := by
    simp [markWord.bias_epoch, hcond, hep]
  exact ⟨hcond, hbl, hage, hbe⟩

/-- Witness for C1 at thread pointer 1024, age 7, epoch 2. -/
theorem C1_encode_thread_roundtrip_witness :
    (markWord.encode_thread 1024 7 2).has_bias_pattern = true ∧
    (markWord.encode_thread 1024 7 2).biased_locker = some 1024 ∧
    (markWord.encode_thread 1024 7 2).age = 7 ∧
    (markWord.encode_thread 1024 7 2).bias_epoch = some 2 :=
  C1_encode_thread_roundtrip 1024 7 2 (by decide) (by decide) (by decide) (by decide)
